import Mathlib

/-!
Verification development for the claude_helper source-analysis tool.

Shallow embedding of the core components:
  * the structural model (`types/common.py`, `types/web.py`),
  * the Python analyzer (`analyzers/python.py`),
  * the shared analyzer base: file reading and recursive dependency
    resolution (`analyzers/base.py`),
  * the React analyzer's result construction (`analyzers/web/react.py`),
  * the analysis cache (`utils/cache.py`).

Modelling conventions:
  * Python `str` is `String`; machine-independent counts are `Nat`;
    timestamps and signed quantities are `Int`; numeric metric values
    (Python ints and floats) are represented as `Rat`, so float
    division is modelled as exact rational division.
  * Python exceptions are `Except String` with the exception message.
  * Python dicts keyed by strings are association lists with
    first-match lookup; assignment prepends (shadowing) or is an
    explicit ordered update where the original order matters.
  * `ast.parse` is not re-implemented; the Python AST is the inductive
    `PyNode` below and the parser enters the model as an oracle
    `parse : String → Except String PyNode`, so theorems quantify over
    all possible parse outcomes.
-/

deriving instance DecidableEq for Except

namespace Claudenine

/-- Enumeration `LanguageType` from `types/common.py`. -/
inductive LanguageType where
  | python
  | typescript
  | javascript
  | react
deriving DecidableEq, Repr

/-- Dataclass `FileLocation` from `types/common.py`. -/
structure FileLocation where
  line : Nat
  column : Nat
  end_line : Option Nat
  end_column : Option Nat
deriving DecidableEq, Repr

/-- Dataclass `CodeBlock` from `types/common.py`. -/
structure CodeBlock where
  content : String
  location : FileLocation
  block_type : String
deriving DecidableEq, Repr

/-- Dataclass `Dependency` from `types/common.py`. -/
structure Dependency where
  name : String
  version : Option String
  is_local : Bool
  import_path : Option String
  used_in : Option (List FileLocation)
deriving DecidableEq, Repr

/-- Dataclass `AnalysisResult` from `types/common.py`.  The `metrics`
mapping (`Dict[str, Any]`, numeric-valued in this code base) is an
association list of rationals. -/
structure AnalysisResult where
  file_path : String
  language : LanguageType
  blocks : List CodeBlock
  dependencies : List Dependency
  errors : List String
  warnings : List String
  metrics : List (String × Rat)
deriving DecidableEq, Repr

/-- Dataclass `AnalysisOptions` from `types/common.py` (the fields the
core reads). -/
structure AnalysisOptions where
  max_file_size : Nat
  ignore_patterns : List String
  max_depth : Int
deriving DecidableEq, Repr

/-- Defaults of `AnalysisOptions` (`max_file_size = 1024 * 1024`). -/
def defaultOptions : AnalysisOptions :=
  { max_file_size := 1024 * 1024, ignore_patterns := [], max_depth := 3 }

/-! ## String helpers mirroring the Python string operations used by the
analyzers.  They are written over `List Char` so that every definition
is structurally recursive and kernel-reducible. -/

/-- Truthiness of a Python string: `""` is falsy. -/
def pyEmpty (s : String) : Bool := s.toList.isEmpty

/-- Substring containment on character lists (Python `pat in s`). -/
def charsContain : List Char → List Char → Bool
  | [], pat => pat.isEmpty
  | c :: rest, pat => pat.isPrefixOf (c :: rest) || charsContain rest pat

/-- Python `pat in s` for strings. -/
def containsSub (s pat : String) : Bool := charsContain s.toList pat.toList

/-- Python `s.startswith(pat)`. -/
def strStartsWith (s pat : String) : Bool := pat.toList.isPrefixOf s.toList

/-- Python `c in s` for a single character. -/
def strContainsChar (s : String) (c : Char) : Bool := s.toList.contains c

/-- Python `s.replace('.', '/')` (single-character pattern, so it is a
character-wise map). -/
def replaceDotsWithSlash (s : String) : String :=
  String.mk (s.toList.map fun c => if c = '.' then '/' else c)

/-- Python `s.strip()`. -/
def pyStrip (s : String) : String :=
  String.mk (((s.toList.dropWhile Char.isWhitespace).reverse.dropWhile Char.isWhitespace).reverse)

/-- Python `not s.strip()`: the line is empty or all whitespace. -/
def pyBlank (s : String) : Bool := s.toList.all Char.isWhitespace

/-- Python `len(line) - len(line.lstrip())`: width of the leading
whitespace. -/
def indentWidth (s : String) : Nat := (s.toList.takeWhile Char.isWhitespace).length

/-- Helper for `pySplitlines`: split a character list at newlines. -/
def splitLinesAux : List Char → List Char → List String
  | [], acc => [String.mk acc.reverse]
  | c :: rest, acc =>
    if c = '\n' then String.mk acc.reverse :: splitLinesAux rest []
    else splitLinesAux rest (c :: acc)

/-- Python `s.splitlines()` (newline-only model): `""` gives `[]` and a
trailing newline produces no trailing empty line. -/
def pySplitlines (s : String) : List String :=
  if s.toList.isEmpty then []
  else if s.toList.getLast? = some '\n' then (splitLinesAux s.toList []).dropLast
  else splitLinesAux s.toList []

/-- Python `"\n".join(lines)`. -/
def joinLines (ls : List String) : String := String.intercalate "\n" ls

/-- Python `opt or default` for optional strings (`None` and `""` are
falsy). -/
def pyOrStr (o : Option String) (d : String) : String :=
  match o with
  | some s => if pyEmpty s then d else s
  | none => d

/-- Truthiness of an optional string (`if dep.import_path:`,
`if f.docstring:`): `None` and `""` are falsy. -/
def truthyStr : Option String → Bool
  | some s => !(pyEmpty s)
  | none => false

/-! ## Python AST model

`PyNode` covers the `ast` node kinds that `analyzers/python.py`
inspects; every other node kind is irrelevant to the analyzer except as
a carrier of children.  Wrapper nodes that the analyzer never matches
(`ast.arguments`, `ast.arg`, `ast.withitem`, operator nodes) are
flattened into their parents; this only affects the relative order of
unmatched nodes inside `ast.walk`'s breadth-first traversal. -/

/-- The `ast.alias` node (an `import` name with optional `asname`). -/
structure PyAlias where
  name : String
  asname : Option String
deriving DecidableEq, Repr

/-! Python AST nodes used by `PythonAnalyzer`.  Child sequences use the
sibling type `PyNodeList` (isomorphic to `List PyNode`) so that all
recursion over trees is structural; an `ast` field that is optional
(`returns`, an except handler's `type`, a raise's `exc`) is an empty or
singleton `PyNodeList`. -/
mutual
inductive PyNode where
  | module (body : PyNodeList)
  | functionDef (name : String) (args : List String) (defaults : PyNodeList)
      (returns : PyNodeList) (decorator_list : PyNodeList) (body : PyNodeList)
      (lineno : Nat) (isAsync : Bool)
  | classDef (name : String) (bases : PyNodeList) (decorator_list : PyNodeList)
      (body : PyNodeList) (lineno : Nat)
  | ifStmt (test : PyNode) (body : PyNodeList) (orelse : PyNodeList)
  | whileStmt (test : PyNode) (body : PyNodeList) (orelse : PyNodeList)
  | forStmt (target : PyNode) (iter : PyNode) (body : PyNodeList) (orelse : PyNodeList)
  | tryStmt (body : PyNodeList) (handlers : PyNodeList) (orelse : PyNodeList)
      (finalbody : PyNodeList)
  | exceptHandler (typeExpr : PyNodeList) (body : PyNodeList) (lineno : Nat)
  | withStmt (body : PyNodeList)
  | assertStmt (test : PyNode)
  | raiseStmt (exc : PyNodeList)
  | importStmt (names : List PyAlias) (lineno : Nat) (col_offset : Nat)
  | importFrom (moduleName : Option String) (names : List PyAlias) (lineno : Nat)
      (col_offset : Nat)
  | boolOp (values : PyNodeList)
  | nameExpr (id : String)
  | constantExpr (value : String)
  | attributeExpr (value : PyNode) (attr : String)
  | callExpr (func : PyNode) (args : PyNodeList)
  | listExpr (elts : PyNodeList)
  | dictExpr (elts : PyNodeList)
  | setExpr (elts : PyNodeList)
  | exprStmt (value : PyNode)
  | assignStmt (value : PyNode)
  | passStmt

inductive PyNodeList where
  | nil
  | cons (head : PyNode) (tail : PyNodeList)
end

/-- Convert a sibling chain to an ordinary list. -/
def PyNodeList.toList : PyNodeList → List PyNode
  | .nil => []
  | .cons h t => h :: t.toList

/-- Build a sibling chain from an ordinary list. -/
def PyNodeList.ofList : List PyNode → PyNodeList
  | [] => .nil
  | h :: t => .cons h (PyNodeList.ofList t)

/-- Short constructor for concrete trees. -/
def nl (xs : List PyNode) : PyNodeList := PyNodeList.ofList xs

mutual
/-- Number of nodes of a tree (fuel for the breadth-first walk). -/
def pyFuel : PyNode → Nat
  | .module body => 1 + pyFuelList body
  | .functionDef _ _ defaults returns decs body _ _ =>
    1 + pyFuelList defaults + pyFuelList returns + pyFuelList decs + pyFuelList body
  | .classDef _ bases decs body _ => 1 + pyFuelList bases + pyFuelList decs + pyFuelList body
  | .ifStmt test body orelse => 1 + pyFuel test + pyFuelList body + pyFuelList orelse
  | .whileStmt test body orelse => 1 + pyFuel test + pyFuelList body + pyFuelList orelse
  | .forStmt target iter body orelse =>
    1 + pyFuel target + pyFuel iter + pyFuelList body + pyFuelList orelse
  | .tryStmt body handlers orelse finalbody =>
    1 + pyFuelList body + pyFuelList handlers + pyFuelList orelse + pyFuelList finalbody
  | .exceptHandler typeExpr body _ => 1 + pyFuelList typeExpr + pyFuelList body
  | .withStmt body => 1 + pyFuelList body
  | .assertStmt test => 1 + pyFuel test
  | .raiseStmt exc => 1 + pyFuelList exc
  | .importStmt _ _ _ => 1
  | .importFrom _ _ _ _ => 1
  | .boolOp values => 1 + pyFuelList values
  | .nameExpr _ => 1
  | .constantExpr _ => 1
  | .attributeExpr value _ => 1 + pyFuel value
  | .callExpr f args => 1 + pyFuel f + pyFuelList args
  | .listExpr elts => 1 + pyFuelList elts
  | .dictExpr elts => 1 + pyFuelList elts
  | .setExpr elts => 1 + pyFuelList elts
  | .exprStmt v => 1 + pyFuel v
  | .assignStmt v => 1 + pyFuel v
  | .passStmt => 1

/-- Total node count of a sibling chain. -/
def pyFuelList : PyNodeList → Nat
  | .nil => 0
  | .cons h t => pyFuel h + pyFuelList t
end

/-- Children of a node in `ast` field order (`ast.iter_child_nodes`). -/
def pyChildren : PyNode → List PyNode
  | .module body => body.toList
  | .functionDef _ _ defaults returns decs body _ _ =>
    defaults.toList ++ body.toList ++ decs.toList ++ returns.toList
  | .classDef _ bases decs body _ => bases.toList ++ body.toList ++ decs.toList
  | .ifStmt test body orelse => test :: (body.toList ++ orelse.toList)
  | .whileStmt test body orelse => test :: (body.toList ++ orelse.toList)
  | .forStmt target iter body orelse => target :: iter :: (body.toList ++ orelse.toList)
  | .tryStmt body handlers orelse finalbody =>
    body.toList ++ handlers.toList ++ orelse.toList ++ finalbody.toList
  | .exceptHandler typeExpr body _ => typeExpr.toList ++ body.toList
  | .withStmt body => body.toList
  | .assertStmt test => [test]
  | .raiseStmt exc => exc.toList
  | .importStmt _ _ _ => []
  | .importFrom _ _ _ _ => []
  | .boolOp values => values.toList
  | .nameExpr _ => []
  | .constantExpr _ => []
  | .attributeExpr value _ => [value]
  | .callExpr f args => f :: args.toList
  | .listExpr elts => elts.toList
  | .dictExpr elts => elts.toList
  | .setExpr elts => elts.toList
  | .exprStmt v => [v]
  | .assignStmt v => [v]
  | .passStmt => []

/-- Breadth-first traversal queue step for `ast.walk`.  The fuel bounds
the number of dequeue steps; `walk` supplies `pyFuel n`, the exact node
count of the tree, so the queue always runs dry before the fuel does
(each dequeued node is popped exactly once). -/
def walkAux : Nat → List PyNode → List PyNode
  | 0, _ => []
  | _ + 1, [] => []
  | fuel + 1, n :: rest => n :: walkAux fuel (rest ++ pyChildren n)

/-- `ast.walk(node)`: the node followed by all descendants in
breadth-first order. -/
def walk (n : PyNode) : List PyNode := walkAux (pyFuel n) [n]

/-- Per-node contribution of `PythonAnalyzer._calculate_complexity`:
`If`, `While`, `For`, `Try`, `ExceptHandler`, `With`, `Assert` and
`Raise` add 1; an N-way `BoolOp` adds N-1. -/
def nodeComplexityContrib : PyNode → Nat
  | .ifStmt _ _ _ => 1
  | .whileStmt _ _ _ => 1
  | .forStmt _ _ _ _ => 1
  | .tryStmt _ _ _ _ => 1
  | .exceptHandler _ _ _ => 1
  | .withStmt _ => 1
  | .assertStmt _ => 1
  | .raiseStmt _ => 1
  | .boolOp values => values.toList.length - 1
  | _ => 0

/-- `PythonAnalyzer._calculate_complexity`: base 1 plus the walked
contributions. -/
def calcComplexity (n : PyNode) : Nat :=
  1 + ((walk n).map nodeComplexityContrib).sum

/-- Warnings a single walked node produces in
`PythonAnalyzer._collect_warnings`.  `ast.AsyncFunctionDef` is not an
`ast.FunctionDef` in Python, so the mutable-default check skips
asynchronous declarations. -/
def nodeWarnings : PyNode → List String
  | .exceptHandler typeExpr _ lineno =>
    match typeExpr with
    | .nil => ["Broad exception handler at line " ++ toString lineno]
    | .cons (.nameExpr i) .nil =>
      if i = "Exception" then ["Broad exception handler at line " ++ toString lineno] else []
    | _ => []
  | .functionDef name _ defaults _ _ _ lineno isAsync =>
    if isAsync then []
    else
      defaults.toList.filterMap fun d =>
        match d with
        | .listExpr _ =>
          some ("Mutable default argument in function " ++ name ++ " at line " ++ toString lineno)
        | .dictExpr _ =>
          some ("Mutable default argument in function " ++ name ++ " at line " ++ toString lineno)
        | .setExpr _ =>
          some ("Mutable default argument in function " ++ name ++ " at line " ++ toString lineno)
        | _ => none
  | _ => []

/-- `PythonAnalyzer._collect_warnings`. -/
def collectWarnings (tree : PyNode) : List String :=
  ((walk tree).map nodeWarnings).flatten

/-- `PythonAnalyzer._analyze_imports`: triples of full import name,
alias and location. -/
def pyAnalyzeImports (tree : PyNode) : List (String × String × FileLocation) :=
  ((walk tree).map fun n =>
    match n with
    | .importStmt names lineno col =>
      names.map fun a => (a.name, pyOrStr a.asname a.name, FileLocation.mk lineno col none none)
    | .importFrom moduleName names lineno col =>
      names.map fun a =>
        let m := pyOrStr moduleName ""
        let full := if pyEmpty m then a.name else m ++ "." ++ a.name
        (full, pyOrStr a.asname a.name, FileLocation.mk lineno col none none)
    | _ => []).flatten

/-- Dataclass `PythonFunction` from `analyzers/python.py`. -/
structure PythonFunction where
  name : String
  args : List String
  returns : Option String
  decorators : List String
  docstring : Option String
  is_async : Bool
  complexity : Nat
deriving DecidableEq, Repr

/-- Dataclass `PythonClass` from `analyzers/python.py`. -/
structure PythonClass where
  name : String
  bases : List String
  methods : List PythonFunction
  decorators : List String
  docstring : Option String
deriving DecidableEq, Repr

/-- `PythonAnalyzer._get_decorator_name`.  For a call whose function is
an attribute access, the source reads `node.func.value.id`, which only
exists when the value is a plain name; other shapes fall through to
`""`. -/
def getDecoratorName : PyNode → String
  | .nameExpr i => i
  | .callExpr f _ =>
    match f with
    | .nameExpr i => i
    | .attributeExpr v attr =>
      match v with
      | .nameExpr i => i ++ "." ++ attr
      | _ => ""
    | _ => ""
  | _ => ""

/-- `PythonAnalyzer._get_return_annotation` (the `returns` field is an
empty or singleton chain). -/
def getReturnAnnot : PyNodeList → Option String
  | .cons (.nameExpr i) .nil => some i
  | .cons (.constantExpr v) .nil => some v
  | _ => none

/-- `PythonAnalyzer._get_base_name`. -/
def getBaseName : PyNode → String
  | .nameExpr i => i
  | .attributeExpr v attr =>
    match v with
    | .nameExpr i => i ++ "." ++ attr
    | _ => ""
  | _ => ""

/-- `ast.get_docstring`: the leading expression-statement string
constant of a body, if any. -/
def getDocstring (body : PyNodeList) : Option String :=
  match body with
  | .cons (.exprStmt (.constantExpr s)) _ => some s
  | _ => none

/-- `PythonAnalyzer._analyze_functions`: every walked (possibly nested)
function or asynchronous function declaration. -/
def pyAnalyzeFunctions (tree : PyNode) : List PythonFunction :=
  (walk tree).filterMap fun n =>
    match n with
    | .functionDef name args _ returns decs body _ isAsync =>
      some { name := name, args := args, returns := getReturnAnnot returns,
             decorators := decs.toList.map getDecoratorName, docstring := getDocstring body,
             is_async := isAsync, complexity := calcComplexity n }
    | _ => none

/-- `PythonAnalyzer._analyze_classes`: every walked class declaration,
with its direct-child methods. -/
def pyAnalyzeClasses (tree : PyNode) : List PythonClass :=
  (walk tree).filterMap fun n =>
    match n with
    | .classDef name bases decs body _ =>
      some { name := name,
             bases := bases.toList.map getBaseName,
             methods := body.toList.filterMap fun c =>
               match c with
               | .functionDef mname margs _ mreturns mdecs mbody _ misAsync =>
                 some { name := mname, args := margs, returns := getReturnAnnot mreturns,
                        decorators := mdecs.toList.map getDecoratorName,
                        docstring := getDocstring mbody, is_async := misAsync,
                        complexity := calcComplexity c }
               | _ => none,
             decorators := decs.toList.map getDecoratorName,
             docstring := getDocstring body }
    | _ => none

/-- Match test of `PythonAnalyzer._extract_block_content`: the line
contains `def NAME` or `class NAME`. -/
def lineMatchesDecl (name line : String) : Bool :=
  containsSub line ("def " ++ name) || containsSub line ("class " ++ name)

/-- Scan of `PythonAnalyzer._extract_block_content`: at the first
matching line, keep following lines until a non-blank line with indent
not exceeding the declaration's indent. -/
def extractBlockAux : List String → String → Option String
  | [], _ => none
  | line :: rest, name =>
    if lineMatchesDecl name line then
      let indent := indentWidth line
      let blockLines := line :: rest.takeWhile fun nl => !((!pyBlank nl) && indentWidth nl ≤ indent)
      some (joinLines blockLines)
    else extractBlockAux rest name

/-- `PythonAnalyzer._extract_block_content`. -/
def extractBlockContent (lines : List String) (name : String) : Option String :=
  extractBlockAux lines name

/-- The placeholder location `FileLocation(0, 0)` used by
`_create_code_blocks`. -/
def zeroLoc : FileLocation := FileLocation.mk 0 0 none none

/-- `PythonAnalyzer._create_code_blocks`: function blocks then class
blocks, each kept only when the extracted text is truthy. -/
def createCodeBlocks (content : String) (functions : List PythonFunction)
    (classes : List PythonClass) : List CodeBlock :=
  let lines := pySplitlines content
  (functions.filterMap fun f =>
    (extractBlockContent lines f.name).bind fun bc =>
      if pyEmpty bc then none
      else some (CodeBlock.mk bc zeroLoc "function"))
  ++ (classes.filterMap fun c =>
    (extractBlockContent lines c.name).bind fun bc =>
      if pyEmpty bc then none
      else some (CodeBlock.mk bc zeroLoc "class"))

/-- `BaseAnalyzer.collect_metrics` from `analyzers/base.py`. -/
def collectMetrics (content : String) (blocks : List CodeBlock) : List (String × Rat) :=
  let lines := pySplitlines content
  [("total_lines", (lines.length : Rat)),
   ("code_lines", ((lines.filter fun l => !pyBlank l).length : Rat)),
   ("comment_lines", ((lines.filter fun l => strStartsWith (pyStrip l) "#").length : Rat)),
   ("empty_lines", ((lines.filter pyBlank).length : Rat)),
   ("blocks", (blocks.length : Rat)),
   ("avg_block_size",
     if blocks.isEmpty then 0
     else ((blocks.map fun b => ((pySplitlines b.content).length : Rat)).sum) / (blocks.length : Rat))]

/-- Python `dict.update`: overwritten keys keep their position, new
keys append in order. -/
def dictUpdate (m n : List (String × Rat)) : List (String × Rat) :=
  (m.map fun kv =>
    match n.lookup kv.1 with
    | some v => (kv.1, v)
    | none => kv)
  ++ n.filter fun kv => (m.lookup kv.1).isNone

/-- `PythonAnalyzer._collect_python_metrics`.  The source calls
`super().collect_metrics("", [])`, i.e. the base metrics are computed
from the empty string and an empty block list, not from the analyzed
file; the `tree` parameter is unused in the source as well. -/
def collectPythonMetrics (_tree : PyNode) (functions : List PythonFunction)
    (classes : List PythonClass) : List (String × Rat) :=
  dictUpdate (collectMetrics "" [])
    [("num_functions", (functions.length : Rat)),
     ("num_classes", (classes.length : Rat)),
     ("num_methods", ((classes.map fun c => c.methods.length).sum : Rat)),
     ("avg_function_complexity",
       if functions.isEmpty then 0
       else ((functions.map fun f => (f.complexity : Rat)).sum) / (functions.length : Rat)),
     ("documented_items",
       (((functions.filter fun f => truthyStr f.docstring).length
         + (classes.filter fun c => truthyStr c.docstring).length : Nat) : Rat)),
     ("async_functions", ((functions.filter fun f => f.is_async).length : Rat))]

/-- `PythonAnalyzer._build_dependencies`: an import is local when its
name contains a dot and does not start with a well-known external
package prefix; local imports get a slash-path with `.py` appended. -/
def buildDependencies (imports : List (String × String × FileLocation)) : List Dependency :=
  imports.map fun t =>
    let impName := t.1
    let loc := t.2.2
    let isLoc := strContainsChar impName '.'
      && !(["django", "flask", "fastapi"].any fun pkg => strStartsWith impName pkg)
    { name := impName, version := none, is_local := isLoc,
      import_path := if isLoc then some (replaceDotsWithSlash impName ++ ".py") else none,
      used_in := some [loc] }

/-! ## File reading (`BaseAnalyzer.read_file`) -/

/-- The filesystem as the analyzers observe it. -/
structure FS where
  pathExists : String → Bool
  size : String → Nat
  readText : String → Except String String

/-- The per-analyzer `_file_cache` (`Dict[str, str]`). -/
abbrev FileCache := List (String × String)

/-- `BaseAnalyzer.read_file`: memoized read that returns `None` for a
missing file, raises on an oversized file (checked before reading) and
wraps read errors. -/
def readFile (fs : FS) (opts : AnalysisOptions) (cache : FileCache) (path : String) :
    Except String (Option String × FileCache) :=
  match cache.lookup path with
  | some c => .ok (some c, cache)
  | none =>
    if !fs.pathExists path then .ok (none, cache)
    else if opts.max_file_size < fs.size path then
      .error ("File " ++ path ++ " exceeds maximum size (" ++ toString opts.max_file_size
        ++ " bytes)")
    else
      match fs.readText path with
      | .ok content => .ok (some content, (path, content) :: cache)
      | .error e => .error ("Failed to read " ++ path ++ ": " ++ e)

/-- `PythonAnalyzer.analyze_file`.  `parse` is the `ast.parse` oracle;
a falsy (`None` or empty) content raises `Could not read file`, a parse
failure is returned as a diagnostic-only result, and a successful parse
produces the full structural result. -/
def pyAnalyzeFile (fs : FS) (parse : String → Except String PyNode) (opts : AnalysisOptions)
    (cache : FileCache) (path : String) : Except String (AnalysisResult × FileCache) :=
  match readFile fs opts cache path with
  | .error e => .error e
  | .ok (contentOpt, cache') =>
    match contentOpt with
    | none => .error ("Could not read file: " ++ path)
    | some content =>
      if pyEmpty content then .error ("Could not read file: " ++ path)
      else
        match parse content with
        | .error e =>
          .ok ({ file_path := path, language := .python, blocks := [], dependencies := [],
                 errors := ["Syntax error: " ++ e], warnings := [], metrics := [] }, cache')
        | .ok tree =>
          let importTriples := pyAnalyzeImports tree
          let functions := pyAnalyzeFunctions tree
          let classes := pyAnalyzeClasses tree
          let blocks := createCodeBlocks content functions classes
          let metrics := collectPythonMetrics tree functions classes
          let dependencies := buildDependencies importTriples
          .ok ({ file_path := path, language := .python, blocks := blocks,
                 dependencies := dependencies, errors := [],
                 warnings := collectWarnings tree, metrics := metrics }, cache')

/-! ## Analysis cache (`utils/cache.py`)

The SQLite table `analysis_cache(file_path PRIMARY KEY, content_hash,
analysis_data, timestamp, file_size)` is modelled as a list of rows in
rowid (insertion) order.  The `analysis_data` TEXT column holds
`json.dumps(analysis_data)`; since `json.loads` inverts `json.dumps`,
`get`/`set` are modelled directly on the serialized string, and
`file_size = len(json.dumps(analysis_data))` is its length. -/

/-- `CacheConfig` as read by `AnalysisCache` (`enabled`, `ttl` in
minutes, `max_size` in MB; the `path` field only locates the store). -/
structure CacheConfig where
  enabled : Bool
  ttl : Int
  max_size : Nat
deriving DecidableEq, Repr

/-- One row of the `analysis_cache` table. -/
structure CacheEntry where
  file_path : String
  content_hash : String
  analysis_data : String
  timestamp : Int
  file_size : Nat
deriving DecidableEq, Repr

/-- The table, in rowid order. -/
abbrev CacheStore := List CacheEntry

/-- `SELECT SUM(file_size) FROM analysis_cache` (with `NULL` as 0). -/
def totalCacheSize (st : CacheStore) : Nat :=
  (st.map fun e => e.file_size).sum

/-- Timestamp order used by the eviction query (`ORDER BY timestamp
ASC`). -/
def tsLe (a b : CacheEntry) : Prop := a.timestamp ≤ b.timestamp

instance : DecidableRel tsLe := fun a b => inferInstanceAs (Decidable (a.timestamp ≤ b.timestamp))

instance : IsTotal CacheEntry tsLe := ⟨fun a b => Int.le_total a.timestamp b.timestamp⟩

instance : IsTrans CacheEntry tsLe := ⟨fun _ _ _ hab hbc => le_trans hab hbc⟩

/-- The file paths of the `k` oldest rows (`SELECT file_path FROM
analysis_cache ORDER BY timestamp ASC LIMIT k`), with timestamp ties
broken stably by rowid order. -/
def oldestPaths (st : CacheStore) (k : Nat) : List String :=
  ((List.insertionSort tsLe st).take k).map fun e => e.file_path

/-- `AnalysisCache._cleanup_if_needed`: when the stored byte total
exceeds `max_size` MB, delete the rows whose paths are among the
`int(total_size * 0.2)` oldest — a byte figure used as a row count
(modelled as `total_size / 5`; the claim itself calls the fraction
approximate). -/
def cleanupIfNeeded (cfg : CacheConfig) (st : CacheStore) : CacheStore :=
  if cfg.max_size * 1024 * 1024 < totalCacheSize st then
    let doomed := oldestPaths st (totalCacheSize st / 5)
    st.filter fun e => !(doomed.contains e.file_path)
  else st

/-- `INSERT OR REPLACE`: the conflicting row (same primary-key path) is
deleted and the new row appended with a fresh rowid. -/
def upsertRow (st : CacheStore) (p h data : String) (now : Int) : CacheStore :=
  (st.filter fun e => !(e.file_path == p)) ++ [CacheEntry.mk p h data now data.length]

/-- `AnalysisCache.set`: no-op when disabled, otherwise the eviction
check followed by the upsert. -/
def cacheSet (cfg : CacheConfig) (st : CacheStore) (p h data : String) (now : Int) : CacheStore :=
  if cfg.enabled then upsertRow (cleanupIfNeeded cfg st) p h data now else st

/-- `AnalysisCache.get`: `None` when disabled; a hit needs the path and
hash to match and the entry's age to be within `ttl * 60` seconds. -/
def cacheGet (cfg : CacheConfig) (st : CacheStore) (p h : String) (now : Int) : Option String :=
  if cfg.enabled then
    match st.find? fun e => e.file_path == p && e.content_hash == h with
    | some e => if now - e.timestamp ≤ cfg.ttl * 60 then some e.analysis_data else none
    | none => none
  else none

/-- `AnalysisCache.invalidate`. -/
def cacheInvalidate (st : CacheStore) (p : String) : CacheStore :=
  st.filter fun e => !(e.file_path == p)

/-! ## Recursive dependency resolution (`BaseAnalyzer.analyze_dependencies`)

`analyze_file` is abstract in `BaseAnalyzer`; the resolver only reads
the `dependencies` list of the result, resolves each local import path
against the workspace and checks existence on disk.  `DepEnv` packages
exactly those three observations.  The per-analyzer
`_dependency_cache` is threaded explicitly. -/

/-- What `analyze_dependencies` observes: the dependency list an
analysis of each path produces, path resolution against the workspace
(`(workspace_path / import_path).resolve()` as a string), and on-disk
existence. -/
structure DepEnv where
  deps : String → List Dependency
  resolvePath : String → String
  pathExists : String → Bool

/-- The `_dependency_cache` dict (`Dict[str, Set[str]]`); assignment
prepends, lookup takes the first match. -/
abbrev DepCache := List (String × Finset String)

/-- One iteration of the loop in `BaseAnalyzer.analyze_dependencies`:
a dep is followed when `is_local` holds, `import_path` is truthy and
the resolved path exists on disk; it is added to the set, and when the
call recurses (`depth > 1`, a loop-invariant condition supplied here as
the `recurse` callback) the nested result is unioned in and the memo
state threads through. -/
def depStep (env : DepEnv) (recurse : Option (String → DepCache → Finset String × DepCache))
    (acc : Finset String × DepCache) (dep : Dependency) : Finset String × DepCache :=
  match dep.import_path with
  | some ip =>
    if dep.is_local && !(pyEmpty ip) then
      if env.pathExists (env.resolvePath ip) then
        match recurse with
        | some f =>
          (insert (env.resolvePath ip) acc.1 ∪ (f (env.resolvePath ip) acc.2).1,
            (f (env.resolvePath ip) acc.2).2)
        | none => (insert (env.resolvePath ip) acc.1, acc.2)
      else acc
    else acc
  | none => acc

/-- Recursion core of `BaseAnalyzer.analyze_dependencies` for depth
`n ≥ 1` (`n` is the Python `depth`; the `0` case is unreachable from
the wrapper).  The loop folds `depStep` over the analysis' dependency
list, recursing with `depth - 1` when `depth > 1`; the memo is written
only after the loop, as in the source. -/
def analyzeDependenciesAux (env : DepEnv) : Nat → String → DepCache → Finset String × DepCache
  | 0, _, cache => (∅, cache)
  | n + 1, path, cache =>
    match cache.lookup path with
    | some s => (s, cache)
    | none =>
      let res := (env.deps path).foldl
        (depStep env
          (if 1 < n + 1 then some (fun dp c => analyzeDependenciesAux env n dp c) else none))
        (∅, cache)
      (res.1, (path, res.1) :: res.2)

/-- `BaseAnalyzer.analyze_dependencies`: `depth < 1` returns the empty
set at once (without touching the memo); otherwise the recursion core
runs at `depth` (which the recursive calls only ever lower to 1). -/
def analyzeDependencies (env : DepEnv) (depth : Int) (path : String) (cache : DepCache) :
    Finset String × DepCache :=
  if depth < 1 then (∅, cache)
  else analyzeDependenciesAux env depth.toNat path cache

/-- Accumulation of one direct dependency for `specDirectDeps`: the
resolved path joins the set when the edge is local, truthy and the
target exists on disk. -/
def specStep (env : DepEnv) (acc : Finset String) (dep : Dependency) : Finset String :=
  match dep.import_path with
  | some ip =>
    if dep.is_local && !(pyEmpty ip) then
      if env.pathExists (env.resolvePath ip) then insert (env.resolvePath ip) acc else acc
    else acc
  | none => acc

/-- Stated from the spec's words for the depth-1 contract: the set of
direct local, on-disk-resolvable dependencies of a file, with no
transitive expansion.  Compared against `analyzeDependencies` in the
refinement theorem for the depth contract. -/
def specDirectDeps (env : DepEnv) (path : String) : Finset String :=
  (env.deps path).foldl (specStep env) ∅

/-! ## React analyzer (`analyzers/web/react.py`, `types/web.py`)

The regex-driven extraction helpers (`_analyze_imports`,
`_analyze_components`, `_analyze_hooks`, `_analyze_types`,
`_analyze_styles`) are pure functions of the file content; they enter
the model as an oracle, since the claims about this analyzer hold for
every possible output of those helpers.  The result construction and
the dependency classification are embedded concretely. -/

/-- Enumeration `ReactComponentType` from `types/web.py`. -/
inductive ReactComponentType where
  | functional
  | classComp
  | hook
  | hoc
  | pure
deriving DecidableEq, Repr

/-- Enumeration `ImportType` from `types/web.py`. -/
inductive ImportType where
  | default
  | named
  | namespaceImp
  | dynamic
deriving DecidableEq, Repr

/-- Dataclass `ReactComponent` (`props`/`state` are lists of small
string-keyed dicts). -/
structure ReactComponent where
  name : String
  component_type : ReactComponentType
  props : List (List (String × String))
  state : Option (List (List (String × String)))
  hooks : List String
  jsx_elements : List String
  code_block : CodeBlock
deriving DecidableEq, Repr

/-- Dataclass `ReactHook`. -/
structure ReactHook where
  name : String
  dependencies : List String
  effect_type : Option String
  code_block : CodeBlock
deriving DecidableEq, Repr

/-- Dataclass `TypeScriptType`. -/
structure TypeScriptType where
  name : String
  definition : String
  is_interface : Bool
  extendsIfaces : Option (List String)
  implementsIfaces : Option (List String)
  code_block : CodeBlock
deriving DecidableEq, Repr

/-- Dataclass `JSImport` from `analyzers/web/react.py`. -/
structure JSImport where
  moduleSpec : String
  items : List String
  import_type : ImportType
  location : FileLocation
deriving DecidableEq, Repr

/-- Dataclass `WebAnalysisResult` from `types/web.py`. -/
structure WebAnalysisResult extends AnalysisResult where
  framework : String
  components : List ReactComponent
  hooks : List ReactHook
  types : List TypeScriptType
  styles : List (String × String)
  imports : List (String × ImportType)
deriving DecidableEq, Repr

/-- `WebAnalysisResult.__init__(file_path, **kwargs)`: the base
constructor is called with `blocks=[]`, `dependencies=[]`, `errors=[]`,
`warnings=[]`, `metrics={}`; then only the keyword arguments actually
passed by `ReactAnalyzer.analyze_file` (`framework`, `components`,
`hooks`, `types`, `styles`, `imports`) are assigned — the base lists
are never overwritten. -/
def mkWebAnalysisResult (path framework : String) (components : List ReactComponent)
    (hooks : List ReactHook) (tys : List TypeScriptType) (styles : List (String × String))
    (imports : List (String × ImportType)) : WebAnalysisResult :=
  { file_path := path, language := .react, blocks := [], dependencies := [], errors := [],
    warnings := [], metrics := [], framework := framework, components := components,
    hooks := hooks, types := tys, styles := styles, imports := imports }

/-- The regex extraction helpers of `ReactAnalyzer`, abstracted as pure
functions of the content. -/
structure ReactOracle where
  analyzeImports : String → List JSImport
  analyzeComponents : String → List ReactComponent
  analyzeHooks : String → List ReactHook
  analyzeTypes : String → List TypeScriptType
  analyzeStyles : String → List (String × String)

/-- Characters after the last occurrence of `c` (the whole list when
`c` is absent). -/
def afterLastChar (c : Char) (l : List Char) : List Char :=
  (l.reverse.takeWhile fun x => x ≠ c).reverse

/-- `pathlib.Path(p).suffix`: the final extension of the last path
component, empty for dotfiles. -/
def pySuffix (p : String) : String :=
  let nm := afterLastChar '/' p.toList
  match nm with
  | [] => ""
  | _ :: rest => if rest.contains '.' then String.mk ('.' :: afterLastChar '.' nm) else ""

/-- `ReactAnalyzer._build_dependencies`: a module specifier is local
when it starts with `.` or `/`; local specifiers keep the raw specifier
as `import_path`. -/
def reactBuildDependencies (imports : List JSImport) : List Dependency :=
  imports.map fun imp =>
    let isLoc := strStartsWith imp.moduleSpec "." || strStartsWith imp.moduleSpec "/"
    { name := imp.moduleSpec, version := none, is_local := isLoc,
      import_path := if isLoc then some imp.moduleSpec else none,
      used_in := some [imp.location] }

/-- `ReactAnalyzer._create_code_blocks`: component blocks then hook
blocks. -/
def reactCreateCodeBlocks (components : List ReactComponent) (hooks : List ReactHook) :
    List CodeBlock :=
  components.map (fun c => c.code_block) ++ hooks.map fun h => h.code_block

/-- Python dict assignment `d[k] = v`: overwrite in place or append. -/
def dictAssign {α : Type} (m : List (String × α)) (k : String) (v : α) : List (String × α) :=
  if (m.lookup k).isSome then m.map fun kv => if kv.1 = k then (k, v) else kv
  else m ++ [(k, v)]

/-- `ReactAnalyzer._categorize_imports`. -/
def categorizeImports (imports : List JSImport) : List (String × ImportType) :=
  imports.foldl
    (fun acc imp => imp.items.foldl (fun acc2 item => dictAssign acc2 item imp.import_type) acc)
    []

/-- `ReactAnalyzer._collect_react_metrics`: like the Python analyzer it
computes the base metrics from `""` and `[]`. -/
def collectReactMetrics (_content : String) (components : List ReactComponent)
    (hooks : List ReactHook) (tys : List TypeScriptType) : List (String × Rat) :=
  dictUpdate (collectMetrics "" [])
    [("num_components", (components.length : Rat)),
     ("num_hooks", (hooks.length : Rat)),
     ("num_types", (tys.length : Rat)),
     ("functional_components",
       ((components.filter fun c => c.component_type = ReactComponentType.functional).length : Rat)),
     ("class_components",
       ((components.filter fun c => c.component_type = ReactComponentType.classComp).length : Rat)),
     ("avg_props_per_component",
       if components.isEmpty then 0
       else ((components.map fun c => (c.props.length : Rat)).sum) / (components.length : Rat)),
     ("components_with_hooks",
       ((components.filter fun c => !c.hooks.isEmpty).length : Rat))]

/-- `ReactAnalyzer.analyze_file`.  The locals `blocks`, `dependencies`
and `metrics` are computed exactly as in the source and then dropped:
the `WebAnalysisResult` constructor call passes neither, so the
returned result keeps the empty base lists. -/
def reactAnalyzeFile (fs : FS) (oracle : ReactOracle) (opts : AnalysisOptions)
    (cache : FileCache) (path : String) : Except String (WebAnalysisResult × FileCache) :=
  match readFile fs opts cache path with
  | .error e => .error e
  | .ok (contentOpt, cache') =>
    match contentOpt with
    | none => .error ("Could not read file: " ++ path)
    | some content =>
      if pyEmpty content then .error ("Could not read file: " ++ path)
      else
        let imports := oracle.analyzeImports content
        let components := oracle.analyzeComponents content
        let hooks := oracle.analyzeHooks content
        let tys :=
          if pySuffix path = ".tsx" || pySuffix path = ".ts" then oracle.analyzeTypes content
          else []
        let _blocks := reactCreateCodeBlocks components hooks
        let _dependencies := reactBuildDependencies imports
        let styles := oracle.analyzeStyles content
        let _metrics := collectReactMetrics content components hooks tys
        .ok (mkWebAnalysisResult path "react" components hooks tys styles
          (categorizeImports imports), cache')

/-- `BaseAnalyzer.get_dependencies`: the projection
`analysis.dependencies`. -/
def getDependencies (analysis : AnalysisResult) : List Dependency :=
  analysis.dependencies

/-- The dependency environment a `ReactAnalyzer` instance induces for
`analyze_dependencies`: the dependency list of each path is the
`dependencies` field of the analysis result (an `analyze_file` failure
contributes no dependency edges). -/
def reactDepEnv (fs : FS) (oracle : ReactOracle) (opts : AnalysisOptions)
    (resolvePath : String → String) (pathExists : String → Bool) : DepEnv :=
  { deps := fun p =>
      match reactAnalyzeFile fs oracle opts [] p with
      | .ok (res, _) => res.dependencies
      | .error _ => [],
    resolvePath := resolvePath,
    pathExists := pathExists }

/-! ## Concrete instances used by witnesses and counterexamples -/

/-- A filesystem holding an unparsable four-byte file everywhere. -/
def fsBad : FS :=
  { pathExists := fun _ => true, size := fun _ => 4, readText := fun _ => .ok "(((" }

/-- A parse oracle that always reports a syntax error (what `ast.parse`
does on `fsBad`'s content). -/
def parseFail : String → Except String PyNode := fun _ => .error "unexpected EOF"

/-- The diagnostic-only result `analyze_file` returns for `bad.py` on
`fsBad`. -/
def resBad : AnalysisResult :=
  { file_path := "bad.py", language := .python, blocks := [], dependencies := [],
    errors := ["Syntax error: unexpected EOF"], warnings := [], metrics := [] }

/-- A filesystem whose files all exist, are empty and read as `""`. -/
def fsEmpty : FS :=
  { pathExists := fun _ => true, size := fun _ => 0, readText := fun _ => .ok "" }

/-- A React oracle extracting nothing (its outputs are irrelevant to
the claims it witnesses). -/
def oracleNull : ReactOracle :=
  { analyzeImports := fun _ => [], analyzeComponents := fun _ => [],
    analyzeHooks := fun _ => [], analyzeTypes := fun _ => [], analyzeStyles := fun _ => [] }

/-- A filesystem holding the one-line file `x = 1` everywhere. -/
def fsOneLine : FS :=
  { pathExists := fun _ => true, size := fun _ => 5, readText := fun _ => .ok "x = 1" }

/-- Parse oracle for `x = 1`: a module with a single assignment. -/
def parseOneLine : String → Except String PyNode :=
  fun _ => .ok (.module (nl [.assignStmt (.constantExpr "1")]))

/-- The function declaration of the concrete complexity scenario: one
`if` statement and one `try` with a single `except Exception:` handler
at line 5, and no other counted constructs. -/
def c3Func : PyNode :=
  .functionDef "process" ["x"] (nl []) (nl []) (nl [])
    (nl [ .ifStmt (.nameExpr "flag") (nl [.passStmt]) (nl []),
          .tryStmt (nl [.exprStmt (.callExpr (.nameExpr "work") (nl []))])
            (nl [.exceptHandler (nl [.nameExpr "Exception"]) (nl [.passStmt]) 5])
            (nl []) (nl []) ]) 1 false

/-- Module containing only `c3Func`. -/
def c3Tree : PyNode := .module (nl [c3Func])

/-- An enabled cache configuration with the default TTL and budget. -/
def cfgOn : CacheConfig := { enabled := true, ttl := 60, max_size := 100 }

/-- An enabled cache configuration with a zero byte budget, so any
stored data triggers eviction. -/
def cfgTiny : CacheConfig := { enabled := true, ttl := 60, max_size := 0 }

/-- An older cache row. -/
def entryOld : CacheEntry :=
  { file_path := "old.py", content_hash := "h0", analysis_data := "{}", timestamp := 10,
    file_size := 4 }

/-- A newer cache row. -/
def entryNew : CacheEntry :=
  { file_path := "new.py", content_hash := "h1", analysis_data := "{}", timestamp := 20,
    file_size := 3 }

/-- A two-row store in rowid order (newer row inserted first, so the
eviction ordering is exercised). -/
def stTwo : CacheStore := [entryNew, entryOld]

/-- A local dependency edge with the given display name and import
path. -/
def depToward (nm ip : String) : Dependency :=
  { name := nm, version := none, is_local := true, import_path := some ip, used_in := none }

/-- A dependency environment of two files `a` and `b` with cyclic local
imports: analysing `a` reports an import resolving to `b` and vice
versa; both files exist on disk, nothing else does. -/
def cycEnv (a b ia ib : String) : DepEnv :=
  { deps := fun p =>
      if p = a then [depToward "B" ib] else if p = b then [depToward "A" ia] else [],
    resolvePath := fun ip => if ip = ib then b else if ip = ia then a else ip,
    pathExists := fun p => p == a || p == b }

/-- A dependency environment where `main.py` has one resolvable local
dependency and one external dependency. -/
def envOne : DepEnv :=
  { deps := fun p =>
      if p = "main.py" then
        [depToward "pkg.util" "pkg/util.py",
         { name := "flask", version := none, is_local := false, import_path := none,
           used_in := none }]
      else [],
    resolvePath := fun ip => "/ws/" ++ ip,
    pathExists := fun p => p == "/ws/pkg/util.py" }

/-- The result `ReactAnalyzer.analyze_file` produces for `App.tsx` on
`fsOneLine` with the trivial oracle. -/
def resReact : WebAnalysisResult := mkWebAnalysisResult "App.tsx" "react" [] [] [] [] []

/-! ## Theorems

The first three lemmas justify the breadth-first `walk` fuelling: the
fuel `pyFuel n` is the exact node count, and `walkAux` returns the same
traversal under any fuel at least the queue's node count, so `walk` is
the total breadth-first traversal of `ast.walk` and not a truncation. -/

/-- The node count of a sibling chain is the summed node count of its
elements. -/
theorem pyFuelList_eq_toList : ∀ (l : PyNodeList),
    pyFuelList l = (l.toList.map pyFuel).sum
  | .nil => rfl
  | .cons h t => by
    simp [PyNodeList.toList, pyFuelList, pyFuelList_eq_toList t]

/-- A node outweighs its children by exactly itself. -/
theorem pyChildren_fuel (n : PyNode) :
    ((pyChildren n).map pyFuel).sum + 1 = pyFuel n := by
  cases n <;> simp [pyChildren, pyFuel, pyFuelList_eq_toList, Option.toList] <;> omega

/-- Any fuel bounding the queue's node count yields the same (complete)
breadth-first traversal. -/
theorem walkAux_fuel_irrelevant : ∀ (f : Nat) (q : List PyNode),
    (q.map pyFuel).sum ≤ f → walkAux f q = walkAux ((q.map pyFuel).sum) q := by
  intro f
  induction f with
  | zero =>
    intro q hq
    rw [Nat.le_zero.mp hq]
  | succ f ih =>
    intro q hq
    cases q with
    | nil => rfl
    | cons n rest =>
      have hmeas : ((n :: rest).map pyFuel).sum = ((rest ++ pyChildren n).map pyFuel).sum + 1 := by
        have hc := pyChildren_fuel n
        simp only [List.map_cons, List.sum_cons, List.map_append, List.sum_append]
        omega
      have hle : ((rest ++ pyChildren n).map pyFuel).sum ≤ f := by omega
      show n :: walkAux f (rest ++ pyChildren n) = walkAux (((n :: rest).map pyFuel).sum) (n :: rest)
      rw [hmeas]
      show n :: walkAux f (rest ++ pyChildren n) =
        n :: walkAux (((rest ++ pyChildren n).map pyFuel).sum) (rest ++ pyChildren n)
      rw [ih _ hle]

/-- C1: for every `AnalysisResult` returned by the full-parse
analyzer's `analyze_file`, a non-empty `errors` list forces empty
`blocks` and `dependencies`: the only returning branch that populates
`errors` is the syntax-error branch, which hard-codes both structural
lists to be empty, and the success branch hard-codes `errors = []`. -/
theorem c1_errors_imply_no_structural_facts (fs : FS) (parse : String → Except String PyNode)
    (opts : AnalysisOptions) (cache : FileCache) (path : String) (res : AnalysisResult)
    (cache' : FileCache)
    (h : pyAnalyzeFile fs parse opts cache path = .ok (res, cache'))
    (hne : res.errors ≠ []) :
    res.blocks = [] ∧ res.dependencies = [] := by
  unfold pyAnalyzeFile at h
  repeat any_goals split at h
  any_goals exact Except.noConfusion h
  all_goals simp only [Except.ok.injEq, Prod.mk.injEq] at h
  all_goals obtain ⟨h1, -⟩ := h
  all_goals subst h1
  · exact ⟨rfl, rfl⟩
  · exact absurd rfl hne

/-- C1 witness: on a file whose content fails to parse, the returned
result has a diagnostic and no structural facts. -/
theorem c1_witness : resBad.blocks = [] ∧ resBad.dependencies = [] :=
  c1_errors_imply_no_structural_facts fsBad parseFail defaultOptions [] "bad.py" resBad
    [("bad.py", "(((")] (by decide) (by decide)

/-- C2: when the content reads successfully, is truthy, and `ast.parse`
raises a syntax error, `analyze_file` returns (does not propagate the
exception) a result carrying the `Syntax error: ...` diagnostic and
empty `blocks`/`dependencies`. -/
theorem c2_parse_failure_returned_as_diagnostic (fs : FS)
    (parse : String → Except String PyNode) (opts : AnalysisOptions) (cache : FileCache)
    (path content : String) (cache' : FileCache) (e : String)
    (hread : readFile fs opts cache path = .ok (some content, cache'))
    (htruthy : pyEmpty content = false)
    (hparse : parse content = .error e) :
    pyAnalyzeFile fs parse opts cache path =
      .ok ({ file_path := path, language := .python, blocks := [], dependencies := [],
             errors := ["Syntax error: " ++ e], warnings := [], metrics := [] }, cache') := by
  unfold pyAnalyzeFile
  rw [hread]
  simp [htruthy, hparse]

/-- C2 witness: the concrete unparsable file produces exactly the
diagnostic-only result. -/
theorem c2_witness :
    pyAnalyzeFile fsBad parseFail defaultOptions [] "bad.py" =
      .ok (resBad, [("bad.py", "(((")]) :=
  c2_parse_failure_returned_as_diagnostic fsBad parseFail defaultOptions [] "bad.py" "((("
    [("bad.py", "(((")] "unexpected EOF" (by decide) (by decide) rfl

/-- C3 counterexample: the declaration with exactly one `if` and one
`except Exception:` handler is not assigned complexity 3 — the
`ast.Try` node enclosing the handler is itself a counted construct. -/
theorem c3_complexity_counterexample :
    (pyAnalyzeFunctions c3Tree).map (fun f => f.complexity) ≠ [3] := by decide

/-- C3 amended: the declaration is assigned complexity 4 (base 1, +1
for the `if`, +1 for the `try`, +1 for the `except` handler) and the
analysis carries exactly one warning flagging the broad exception
handler at its line. -/
theorem c3_complexity_four_and_one_warning :
    (pyAnalyzeFunctions c3Tree).map (fun f => f.complexity) = [4] ∧
    collectWarnings c3Tree = ["Broad exception handler at line 5"] := by decide

/-- C8: the line-count metrics of a successfully parsed file are
computed from the empty string (`collect_metrics("", [])`), so
`total_lines` is always 0; in particular for the one-line file `x = 1`
the reported `total_lines` is 0 while the file has 1 line. -/
theorem c8_total_lines_reported_zero :
    (∀ (tree : PyNode) (functions : List PythonFunction) (classes : List PythonClass),
      (collectPythonMetrics tree functions classes).lookup "total_lines" = some 0) ∧
    (match pyAnalyzeFile fsOneLine parseOneLine defaultOptions [] "one.py" with
      | .ok (res, _) => res.metrics.lookup "total_lines"
      | .error _ => none) = some 0 ∧
    (pySplitlines "x = 1").length = 1 :=
  ⟨fun _ _ _ => rfl, by decide, by decide⟩

/-- C10: an existing, readable, zero-byte file under the size limit
makes both analyzers raise `Could not read file` instead of returning a
result: `read_file` returns `""`, which the truthiness check treats
like a missing file. -/
theorem c10_empty_file_raises (fs : FS) (parse : String → Except String PyNode)
    (oracle : ReactOracle) (opts : AnalysisOptions) (path : String)
    (hex : fs.pathExists path = true)
    (hsize : fs.size path ≤ opts.max_file_size)
    (hread : fs.readText path = .ok "") :
    pyAnalyzeFile fs parse opts [] path = .error ("Could not read file: " ++ path) ∧
    reactAnalyzeFile fs oracle opts [] path = .error ("Could not read file: " ++ path) := by
  have hrf : readFile fs opts [] path = .ok (some "", [(path, "")]) := by
    unfold readFile
    simp [hex, hread, Nat.not_lt.mpr hsize]
  constructor
  · unfold pyAnalyzeFile
    rw [hrf]
    simp [pyEmpty]
  · unfold reactAnalyzeFile
    rw [hrf]
    simp [pyEmpty]

/-- C10 witness: the zero-byte file `empty.py` raises in both
analyzers. -/
theorem c10_witness :
    pyAnalyzeFile fsEmpty parseFail defaultOptions [] "empty.py" =
      .error ("Could not read file: " ++ "empty.py") ∧
    reactAnalyzeFile fsEmpty oracleNull defaultOptions [] "empty.py" =
      .error ("Could not read file: " ++ "empty.py") :=
  c10_empty_file_raises fsEmpty parseFail oracleNull defaultOptions "empty.py" (by decide)
    (by decide) (by decide)

/-- Rows whose path differs from `p` never satisfy the lookup predicate
for `p`. -/
theorem find_filter_ne_path (l : List CacheEntry) (p h : String) :
    (l.filter fun e => !(e.file_path == p)).find?
      (fun e => e.file_path == p && e.content_hash == h) = none := by
  induction l with
  | nil => rfl
  | cons a t ih =>
    by_cases ha : a.file_path == p
    · simp [List.filter_cons, ha, ih]
    · simp [List.filter_cons, ha, List.find?_cons, ih]

/-- C4: with the cache enabled, `set(p, h, r)` followed by `get(p, h)`
within the TTL returns `r` (the stored serialized form): the upsert
removes any row shadowing path `p`, the inserted row matches both keys,
and its timestamp is the write time. -/
theorem c4_cache_roundtrip (cfg : CacheConfig) (st : CacheStore) (p h data : String)
    (now now' : Int)
    (hen : cfg.enabled = true)
    (httl : now' - now ≤ cfg.ttl * 60) :
    cacheGet cfg (cacheSet cfg st p h data now) p h now' = some data := by
  unfold cacheSet cacheGet upsertRow
  rw [hen]
  simp only [if_true, List.find?_append, find_filter_ne_path, Option.none_or, List.find?_cons,
    beq_self_eq_true, Bool.and_self, if_pos httl]

/-- C4 witness: a concrete round-trip through an empty store at equal
set and get times. -/
theorem c4_witness : cacheGet cfgOn (cacheSet cfgOn [] "a.py" "h1" "{}" 1000) "a.py" "h1" 1000
    = some "{}" :=
  c4_cache_roundtrip cfgOn [] "a.py" "h1" "{}" 1000 1000 (by decide) (by decide)

/-- C7: with the cache enabled, `set` is the upsert applied after the
eviction check, and when the stored byte total exceeds the `max_size`
MB budget, the check deletes `min (total/5) n` rows — a count obtained
from the byte volume — and every deleted row is at least as old as
every surviving row. -/
theorem c7_eviction_policy (cfg : CacheConfig) (st : CacheStore) (p h data : String) (now : Int)
    (hen : cfg.enabled = true)
    (hnodup : (st.map fun e => e.file_path).Nodup)
    (hover : cfg.max_size * 1024 * 1024 < totalCacheSize st) :
    cacheSet cfg st p h data now = upsertRow (cleanupIfNeeded cfg st) p h data now ∧
    (cleanupIfNeeded cfg st).length = st.length - min (totalCacheSize st / 5) st.length ∧
    (∀ e ∈ cleanupIfNeeded cfg st, ∀ e' ∈ st, e' ∉ cleanupIfNeeded cfg st →
      e'.timestamp ≤ e.timestamp) := by
  have hset : cacheSet cfg st p h data now = upsertRow (cleanupIfNeeded cfg st) p h data now := by
    unfold cacheSet
    rw [hen]
    simp
  have hperm : List.Perm (List.insertionSort tsLe st) st := List.perm_insertionSort tsLe st
  have hsorted : List.Sorted tsLe (List.insertionSort tsLe st) := List.sorted_insertionSort tsLe st
  have hEntNodup : st.Nodup := hnodup.of_map
  have hSortNodup : (List.insertionSort tsLe st).Nodup := hperm.nodup_iff.mpr hEntNodup
  have hDoomNodup : ((List.insertionSort tsLe st).take (totalCacheSize st / 5)).Nodup :=
    hSortNodup.sublist (List.take_sublist _ _)
  -- membership in the doomed path list coincides with membership in the
  -- doomed row list, for rows of the store
  have hmemdoom : ∀ e ∈ st,
      ((oldestPaths st (totalCacheSize st / 5)).contains e.file_path = true ↔
        e ∈ (List.insertionSort tsLe st).take (totalCacheSize st / 5)) := by
    intro e he
    unfold oldestPaths
    constructor
    · intro hc
      have hmem : e.file_path ∈ ((List.insertionSort tsLe st).take (totalCacheSize st / 5)).map
          (fun e => e.file_path) := by
        simpa using hc
      obtain ⟨e', he', hpath⟩ := List.mem_map.mp hmem
      have he'st : e' ∈ st := hperm.mem_iff.mp (List.mem_of_mem_take he')
      have : e' = e := List.inj_on_of_nodup_map hnodup he'st he hpath
      exact this ▸ he'
    · intro hd
      simpa using List.mem_map.mpr ⟨e, hd, rfl⟩
  have hkept : ∀ e, e ∈ cleanupIfNeeded cfg st ↔
      (e ∈ st ∧ e ∉ (List.insertionSort tsLe st).take (totalCacheSize st / 5)) := by
    intro e
    unfold cleanupIfNeeded
    rw [if_pos hover]
    simp only [List.mem_filter, Bool.not_eq_true']
    constructor
    · rintro ⟨he, hnc⟩
      refine ⟨he, fun hd => ?_⟩
      rw [(hmemdoom e he).mpr hd] at hnc
      cases hnc
    · rintro ⟨he, hnd⟩
      refine ⟨he, ?_⟩
      by_cases hc : (oldestPaths st (totalCacheSize st / 5)).contains e.file_path
      · exact absurd ((hmemdoom e he).mp hc) hnd
      · simpa using hc
  -- the dropped rows are a permutation of the doomed prefix
  have hDropNodup : (st.filter fun e =>
      (oldestPaths st (totalCacheSize st / 5)).contains e.file_path).Nodup :=
    hEntNodup.filter _
  have hdropmem : ∀ e, e ∈ (st.filter fun e =>
      (oldestPaths st (totalCacheSize st / 5)).contains e.file_path) ↔
      e ∈ (List.insertionSort tsLe st).take (totalCacheSize st / 5) := by
    intro e
    simp only [List.mem_filter]
    constructor
    · rintro ⟨he, hc⟩
      exact (hmemdoom e he).mp hc
    · intro hd
      have he : e ∈ st := hperm.mem_iff.mp (List.mem_of_mem_take hd)
      exact ⟨he, (hmemdoom e he).mpr hd⟩
  have hdropperm : List.Perm (st.filter fun e =>
      (oldestPaths st (totalCacheSize st / 5)).contains e.file_path)
      ((List.insertionSort tsLe st).take (totalCacheSize st / 5)) :=
    (List.perm_ext_iff_of_nodup hDropNodup hDoomNodup).mpr hdropmem
  have hsplit : List.Perm ((st.filter fun e =>
      (oldestPaths st (totalCacheSize st / 5)).contains e.file_path) ++
      (st.filter fun e => !((oldestPaths st (totalCacheSize st / 5)).contains e.file_path))) st :=
    List.filter_append_perm _ st
  have hkeptform : cleanupIfNeeded cfg st =
      st.filter fun e => !((oldestPaths st (totalCacheSize st / 5)).contains e.file_path) := by
    unfold cleanupIfNeeded
    rw [if_pos hover]
  have hlen : (cleanupIfNeeded cfg st).length =
      st.length - min (totalCacheSize st / 5) st.length := by
    have h1 := hsplit.length_eq
    rw [List.length_append] at h1
    have h2 : (st.filter fun e =>
        (oldestPaths st (totalCacheSize st / 5)).contains e.file_path).length =
        min (totalCacheSize st / 5) st.length := by
      rw [hdropperm.length_eq, List.length_take, hperm.length_eq]
    rw [hkeptform]
    omega
  refine ⟨hset, hlen, ?_⟩
  intro e he e' he' hne'
  have heK := (hkept e).mp he
  have he'D : e' ∈ (List.insertionSort tsLe st).take (totalCacheSize st / 5) := by
    by_cases hd : e' ∈ (List.insertionSort tsLe st).take (totalCacheSize st / 5)
    · exact hd
    · exact absurd ((hkept e').mpr ⟨he', hd⟩) hne'
  have heDrop : e ∈ (List.insertionSort tsLe st).drop (totalCacheSize st / 5) := by
    have hesort : e ∈ List.insertionSort tsLe st := hperm.mem_iff.mpr heK.1
    rw [← List.take_append_drop (totalCacheSize st / 5) (List.insertionSort tsLe st)] at hesort
    rcases List.mem_append.mp hesort with h1 | h2
    · exact absurd h1 heK.2
    · exact h2
  have hpw : List.Pairwise tsLe
      ((List.insertionSort tsLe st).take (totalCacheSize st / 5) ++
        (List.insertionSort tsLe st).drop (totalCacheSize st / 5)) := by
    rw [List.take_append_drop]
    exact hsorted
  exact (List.pairwise_append.mp hpw).2.2 e' he'D e heDrop

/-- C7 witness: a two-row store over a zero budget evicts exactly the
older row before the insert. -/
theorem c7_witness :
    cacheSet cfgTiny stTwo "p.py" "h9" "{}" 99 =
      upsertRow (cleanupIfNeeded cfgTiny stTwo) "p.py" "h9" "{}" 99 ∧
    (cleanupIfNeeded cfgTiny stTwo).length =
      stTwo.length - min (totalCacheSize stTwo / 5) stTwo.length ∧
    (∀ e ∈ cleanupIfNeeded cfgTiny stTwo, ∀ e' ∈ stTwo, e' ∉ cleanupIfNeeded cfgTiny stTwo →
      e'.timestamp ≤ e.timestamp) :=
  c7_eviction_policy cfgTiny stTwo "p.py" "h9" "{}" 99 (by decide) (by decide) (by decide)

/-- A successful association-list lookup locates a stored pair. -/
theorem depCache_lookup_mem : ∀ (c : DepCache) (p : String) (s : Finset String),
    List.lookup p c = some s → (p, s) ∈ c := by
  intro c p s
  induction c with
  | nil => intro h; cases h
  | cons kv t ih =>
    intro h
    obtain ⟨k, v⟩ := kv
    by_cases hk : p == k
    · simp only [List.lookup, hk] at h
      have hpk : p = k := eq_of_beq hk
      subst hpk
      cases h
      exact List.mem_cons_self _ _
    · simp only [List.lookup, hk] at h
      exact List.mem_cons_of_mem _ (ih h)

/-- The non-recursing dependency loop computes the `specStep` fold and
leaves the memo untouched. -/
theorem depStep_none_foldl (env : DepEnv) :
    ∀ (l : List Dependency) (acc : Finset String) (c : DepCache),
      l.foldl (depStep env none) (acc, c) = (l.foldl (specStep env) acc, c) := by
  intro l
  induction l with
  | nil => intro acc c; rfl
  | cons d t ih =>
    intro acc c
    rw [List.foldl_cons, List.foldl_cons]
    have hstep : depStep env none (acc, c) d = (specStep env acc d, c) := by
      unfold depStep specStep
      cases hip : d.import_path with
      | none => rfl
      | some ip =>
        dsimp only
        by_cases h1 : (d.is_local && !(pyEmpty ip)) = true
        · rw [if_pos h1, if_pos h1]
          by_cases h2 : env.pathExists (env.resolvePath ip) = true
          · rw [if_pos h2, if_pos h2]
          · rw [if_neg h2, if_neg h2]
        · rw [if_neg h1, if_neg h1]
    rw [hstep, ih]

/-- Unfolding of the recursion core at depth exactly 1: a memo miss
runs the loop without recursing. -/
theorem analyzeDependenciesAux_one (env : DepEnv) (path : String) (cache : DepCache) :
    analyzeDependenciesAux env 1 path cache =
      match List.lookup path cache with
      | some s => (s, cache)
      | none =>
        (((env.deps path).foldl (depStep env none) (∅, cache)).1,
          (path, ((env.deps path).foldl (depStep env none) (∅, cache)).1) ::
            ((env.deps path).foldl (depStep env none) (∅, cache)).2) := rfl

/-- C5: resolution at `max_depth < 1` returns the empty set untouched,
and resolution at `max_depth = 1` (fresh memo) returns exactly the
direct local, on-disk-resolvable dependencies with no transitive
expansion. -/
theorem c5_depth_contract (env : DepEnv) (path : String) :
    (∀ (depth : Int) (cache : DepCache), depth < 1 →
      analyzeDependencies env depth path cache = (∅, cache)) ∧
    (analyzeDependencies env 1 path []).fst = specDirectDeps env path := by
  constructor
  · intro depth cache hd
    unfold analyzeDependencies
    rw [if_pos hd]
  · have h1 : analyzeDependencies env 1 path [] = analyzeDependenciesAux env 1 path [] := rfl
    rw [h1, analyzeDependenciesAux_one]
    show ((env.deps path).foldl (depStep env none) (∅, [])).1 = specDirectDeps env path
    rw [depStep_none_foldl]
    rfl

/-- C5 witness: depths 0 and -1 resolve to the empty set and depth 1
resolves to the direct dependency set of the concrete environment. -/
theorem c5_witness :
    analyzeDependencies envOne 0 "main.py" [] = (∅, []) ∧
    analyzeDependencies envOne (-1) "main.py" [] = (∅, []) ∧
    (analyzeDependencies envOne 1 "main.py" []).fst = specDirectDeps envOne "main.py" :=
  ⟨(c5_depth_contract envOne "main.py").1 0 [] (by decide),
   (c5_depth_contract envOne "main.py").1 (-1) [] (by decide),
   (c5_depth_contract envOne "main.py").2⟩

/-- Invariant of the recursion core: when every on-disk path belongs to
`S`, every computed dependency set and every memoized set stays within
`S`.  This is the structural heart of the cycle claim — the recursion
is total by construction (fuelled by the depth, which strictly
decreases), and only existing paths enter the result. -/
theorem aux_subset_inv (env : DepEnv) (S : Finset String)
    (henv : ∀ p, env.pathExists p = true → p ∈ S) :
    ∀ (n : Nat) (q : String) (cache : DepCache),
      (∀ kv ∈ cache, kv.2 ⊆ S) →
      (analyzeDependenciesAux env n q cache).1 ⊆ S ∧
      ∀ kv ∈ (analyzeDependenciesAux env n q cache).2, kv.2 ⊆ S := by
  intro n
  induction n with
  | zero =>
    intro q cache hc
    exact ⟨by simp [analyzeDependenciesAux], by simpa [analyzeDependenciesAux] using hc⟩
  | succ n ih =>
    intro q cache hc
    have hfold : ∀ (l : List Dependency) (acc : Finset String × DepCache),
        acc.1 ⊆ S → (∀ kv ∈ acc.2, kv.2 ⊆ S) →
        (l.foldl (depStep env
          (if 1 < n + 1 then some (fun dp c => analyzeDependenciesAux env n dp c) else none))
          acc).1 ⊆ S ∧
        ∀ kv ∈ (l.foldl (depStep env
          (if 1 < n + 1 then some (fun dp c => analyzeDependenciesAux env n dp c) else none))
          acc).2, kv.2 ⊆ S := by
      intro l
      induction l with
      | nil => intro acc hacc1 hacc2; exact ⟨hacc1, hacc2⟩
      | cons d t ihl =>
        intro acc hacc1 hacc2
        rw [List.foldl_cons]
        apply ihl
        all_goals unfold depStep
        all_goals cases hip : d.import_path
        case none => exact hacc1
        case some ip =>
          dsimp only
          by_cases h1 : (d.is_local && !(pyEmpty ip)) = true
          · rw [if_pos h1]
            by_cases h2 : env.pathExists (env.resolvePath ip) = true
            · rw [if_pos h2]
              have hmem : env.resolvePath ip ∈ S := henv _ h2
              by_cases hn : 1 < n + 1
              · rw [if_pos hn]
                exact Finset.union_subset (Finset.insert_subset_iff.mpr ⟨hmem, hacc1⟩)
                  (ih (env.resolvePath ip) acc.2 hacc2).1
              · rw [if_neg hn]
                exact Finset.insert_subset_iff.mpr ⟨hmem, hacc1⟩
            · rw [if_neg h2]; exact hacc1
          · rw [if_neg h1]; exact hacc1
        case none => exact hacc2
        case some ip =>
          dsimp only
          by_cases h1 : (d.is_local && !(pyEmpty ip)) = true
          · rw [if_pos h1]
            by_cases h2 : env.pathExists (env.resolvePath ip) = true
            · rw [if_pos h2]
              by_cases hn : 1 < n + 1
              · rw [if_pos hn]
                exact (ih (env.resolvePath ip) acc.2 hacc2).2
              · rw [if_neg hn]; exact hacc2
            · rw [if_neg h2]; exact hacc2
          · rw [if_neg h1]; exact hacc2
    simp only [analyzeDependenciesAux]
    cases hl : List.lookup q cache with
    | some s =>
      simp only [hl]
      exact ⟨hc _ (depCache_lookup_mem cache q s hl), hc⟩
    | none =>
      simp only [hl]
      obtain ⟨hh1, hh2⟩ := hfold (env.deps q) (∅, cache) (Finset.empty_subset S) hc
      refine ⟨hh1, ?_⟩
      intro kv hkv
      rcases List.mem_cons.mp hkv with h | h
      · subst h; exact hh1
      · exact hh2 _ h

/-- C6: on a cyclic pair of local imports, resolution at every finite
depth is defined (the Lean model is a total function of the depth; the
source recursion strictly decreases `depth`) and stays inside the two
on-disk files, and the returned set holds each path at most once. -/
theorem c6_cyclic_resolution_terminates (a b ia ib : String) (d : Int) :
    (analyzeDependencies (cycEnv a b ia ib) d a []).fst ⊆ ({a, b} : Finset String) ∧
    ∀ p, ((analyzeDependencies (cycEnv a b ia ib) d a []).fst.val.count p ≤ 1) := by
  have henv : ∀ p, (cycEnv a b ia ib).pathExists p = true → p ∈ ({a, b} : Finset String) := by
    intro p hp
    simp only [cycEnv, Bool.or_eq_true, beq_iff_eq] at hp
    simpa [Finset.mem_insert] using hp
  constructor
  · unfold analyzeDependencies
    by_cases hd : d < 1
    · rw [if_pos hd]; exact Finset.empty_subset _
    · rw [if_neg hd]
      exact (aux_subset_inv _ _ henv d.toNat a [] (fun kv h => by cases h)).1
  · intro p
    exact Multiset.nodup_iff_count_le_one.mp (Finset.nodup _) p

/-- Any successful `ReactAnalyzer.analyze_file` result keeps the empty
base `blocks` and `dependencies` installed by the `WebAnalysisResult`
constructor. -/
theorem react_ok_result_fields (fs : FS) (oracle : ReactOracle) (opts : AnalysisOptions)
    (cache : FileCache) (path : String) (res : WebAnalysisResult) (cache' : FileCache)
    (h : reactAnalyzeFile fs oracle opts cache path = .ok (res, cache')) :
    res.blocks = [] ∧ res.dependencies = [] := by
  unfold reactAnalyzeFile at h
  repeat any_goals split at h
  any_goals exact Except.noConfusion h
  all_goals simp only [Except.ok.injEq, Prod.mk.injEq] at h
  all_goals obtain ⟨h1, -⟩ := h
  all_goals subst h1
  all_goals exact ⟨rfl, rfl⟩

/-- A `ReactAnalyzer` contributes no dependency edges to the resolver,
whatever the file contents. -/
theorem reactDepEnv_deps_empty (fs : FS) (oracle : ReactOracle) (opts : AnalysisOptions)
    (rp : String → String) (pe : String → Bool) :
    ∀ p, (reactDepEnv fs oracle opts rp pe).deps p = [] := by
  intro p
  simp only [reactDepEnv]
  cases h : reactAnalyzeFile fs oracle opts [] p with
  | ok pr =>
    obtain ⟨res, c'⟩ := pr
    exact (react_ok_result_fields fs oracle opts [] p res c' h).2
  | error e => rfl

/-- With no dependency edges anywhere, the recursion core always
produces the empty set (and memoizes only empty sets). -/
theorem aux_deps_empty (env : DepEnv) (hdeps : ∀ q, env.deps q = []) :
    ∀ (n : Nat) (q : String) (cache : DepCache),
      (∀ kv ∈ cache, kv.2 = ∅) →
      (analyzeDependenciesAux env n q cache).1 = ∅ ∧
      ∀ kv ∈ (analyzeDependenciesAux env n q cache).2, kv.2 = ∅ := by
  intro n
  induction n with
  | zero =>
    intro q cache hc
    exact ⟨by simp [analyzeDependenciesAux], by simpa [analyzeDependenciesAux] using hc⟩
  | succ n _ =>
    intro q cache hc
    simp only [analyzeDependenciesAux]
    cases hl : List.lookup q cache with
    | some s =>
      simp only [hl]
      exact ⟨hc _ (depCache_lookup_mem cache q s hl), hc⟩
    | none =>
      simp only [hl, hdeps q, List.foldl_nil]
      refine ⟨by trivial, ?_⟩
      intro kv hkv
      rcases List.mem_cons.mp hkv with h | h
      · subst h; rfl
      · exact hc _ h

/-- C9: every `WebAnalysisResult` the React analyzer returns has empty
`blocks` and `dependencies` (the computed code blocks and dependency
edges are dropped by the constructor), so dependency extraction yields
the empty list and recursive dependency resolution over React files
yields the empty set at every depth. -/
theorem c9_react_result_has_no_structure (fs : FS) (oracle : ReactOracle)
    (opts : AnalysisOptions) (cache : FileCache) (path : String) (res : WebAnalysisResult)
    (cache' : FileCache) (resolvePath : String → String) (pathExists : String → Bool)
    (d : Int) (q : String)
    (h : reactAnalyzeFile fs oracle opts cache path = .ok (res, cache')) :
    res.blocks = [] ∧ res.dependencies = [] ∧
    getDependencies res.toAnalysisResult = [] ∧
    (analyzeDependencies (reactDepEnv fs oracle opts resolvePath pathExists) d q []).fst = ∅ := by
  obtain ⟨h1, h2⟩ := react_ok_result_fields fs oracle opts cache path res cache' h
  refine ⟨h1, h2, h2, ?_⟩
  unfold analyzeDependencies
  by_cases hd : d < 1
  · rw [if_pos hd]
  · rw [if_neg hd]
    exact (aux_deps_empty _ (reactDepEnv_deps_empty fs oracle opts resolvePath pathExists)
      d.toNat q [] (fun kv hkv => by cases hkv)).1

/-- C9 witness: the concrete React analysis of `App.tsx` carries no
structural lists, and resolution over the induced environment at depth
3 is empty. -/
theorem c9_witness :
    resReact.blocks = [] ∧ resReact.dependencies = [] ∧
    getDependencies resReact.toAnalysisResult = [] ∧
    (analyzeDependencies
      (reactDepEnv fsOneLine oracleNull defaultOptions (fun s => s) (fun _ => true))
      3 "App.tsx" []).fst = ∅ :=
  c9_react_result_has_no_structure fsOneLine oracleNull defaultOptions [] "App.tsx" resReact
    [("App.tsx", "x = 1")] (fun s => s) (fun _ => true) 3 "App.tsx" (by decide)

end Claudenine
